import Mathlib

/-!
# go-vgo/grpclb: prefix watcher and lease registrar

A shallow embedding of `watcher.go` and `register.go`.

Conventions of the embedding:
* a Go `string` is a Lean `String`; a Go `[]byte` is an `Option String`, `none` being the nil
  slice, so that `string(v)` is `v.getD ""`;
* a Go `int` is an `Int`;
* a Go slice result is a `List` (the nil slice is `[]`), a Go `error` result is an
  `Option Error` (`none` is the nil error);
* the etcd client is the environment: what it answers to a call is an argument of the embedded
  function, what the code asks of it is recorded in the result.
-/

namespace Grpclb

/-! ## Data model -/

/-- Go error values. `ErrKeyNotFound` is `rpctypes.ErrKeyNotFound`, the one value the code
compares an error against; every other error is `other` with its message. -/
inductive Error where
  | ErrKeyNotFound
  | other (msg : String)
deriving DecidableEq, Repr

/-- The `Error()` method of a Go error. -/
def Error.text : Error → String
  | .ErrKeyNotFound => "etcdserver: key not found"
  | .other msg => msg

/-- The etcd `mvccpb.KeyValue` record, restricted to the fields the code reads. `Value` is a
byte slice: `none` is the nil slice (what the client holds for an entry stored with an empty
value, and for the record of a delete event). -/
structure KeyValue where
  Key : String
  Value : Option String
deriving DecidableEq, Repr

/-- The etcd `GetResponse`; `Kvs` is a slice, `none` being the nil slice. -/
structure GetResponse where
  Kvs : Option (List KeyValue)
deriving DecidableEq, Repr

/-- The etcd event type, a 32-bit enumeration. -/
abbrev EventType := Int

/-- Constant `etcd3.EventTypePut` (`mvccpb.PUT`). -/
def EventTypePut : EventType := 0

/-- Constant `etcd3.EventTypeDelete` (`mvccpb.DELETE`). -/
def EventTypeDelete : EventType := 1

/-- The etcd watch event: field `Type` (named `EvType` here) and the key-value record `Kv`,
which etcd fills on every event. -/
structure Event where
  EvType : EventType
  Kv : KeyValue
deriving DecidableEq, Repr

/-- One etcd `WatchResponse`: the events the store grouped into it. -/
structure WatchResponse where
  Events : List Event
deriving DecidableEq, Repr

/-- The operations of `naming.Update`. -/
inductive Operation where
  | Add
  | Delete
deriving DecidableEq, Repr

/-- The record `naming.Update`, restricted to `Op` and `Addr`. -/
structure Update where
  Op : Operation
  Addr : String
deriving DecidableEq, Repr

/-- The resolver a watcher belongs to; only its service name is read. -/
structure resolver where
  serviceName : String
deriving DecidableEq, Repr

/-- The `watcher` struct. The context and its cancel function are the flag `cancelled`; the
client handle is the environment of `Next`. -/
structure watcher where
  re : resolver
  isInitialized : Bool
  cancelled : Bool
deriving DecidableEq, Repr

/-- What the etcd client answers during one call of `Next`: `Get key` is the pair returned by
`client.Get(ctx, key, WithPrefix())`, and `Watch key` lists the responses that the channel
returned by `client.Watch(ctx, key, WithPrefix())` yields until it is closed. A channel that
stays open for ever without a put or delete event, on which `Next` never returns, is not
among these answers. -/
structure StoreAnswers where
  Get : String → Option GetResponse × Option Error
  Watch : String → List WatchResponse

/-- The result of one call of `Next`: the receiver after the call, the two return values, and
the number of responses the call received from the channel it opened (0 when it opened none). -/
structure NextResult where
  w : watcher
  updates : List Update
  err : Option Error
  received : Nat
deriving DecidableEq, Repr

/-! ## watcher.go -/

/-- Function `newWatcher`. -/
def newWatcher (re : resolver) : watcher :=
  { re := re, isInitialized := false, cancelled := false }

/-- Method `Close`. -/
def watcher.Close (w : watcher) : watcher :=
  { w with cancelled := true }

/-- Conversion `string(v)` of a byte slice. -/
def bytesToString (v : Option String) : String :=
  v.getD ""

/-- Function `extractAddrs`: the values of the entries whose value is not nil, appended in the
order of `resp.Kvs`. -/
def extractAddrs (resp : Option GetResponse) : List String :=
  match resp with
  | none => []
  | some r =>
    match r.Kvs with
    | none => []
    | some kvs =>
      kvs.foldl
        (fun addrs kv =>
          match kv.Value with
          | some v => addrs ++ [v]
          | none => addrs)
        []

/-- The loop `for _, ev := range wresp.Events` of `Next`: `some us` when the loop returns `us`,
`none` when it runs to its end. -/
def nextEvents : List Event → Option (List Update)
  | [] => none
  | ev :: evs =>
    if ev.EvType = EventTypePut then
      some [{ Op := .Add, Addr := bytesToString ev.Kv.Value }]
    else if ev.EvType = EventTypeDelete then
      some [{ Op := .Delete, Addr := bytesToString ev.Kv.Value }]
    else nextEvents evs

/-- The loop `for wresp := range rch` of `Next` together with the final `return nil, nil`:
the returned updates and the number of responses received, counted from `n`. -/
def nextRange : List WatchResponse → Nat → List Update × Nat
  | [], n => ([], n)
  | wresp :: rch, n =>
    match nextEvents wresp.Events with
    | some us => (us, n + 1)
    | none => nextRange rch (n + 1)

/-- The watched key of `Next`: `fmt.Sprintf("/%s/%s/", Prefix, w.re.serviceName)`. -/
def watchKey (Prefix : String) (serviceName : String) : String :=
  "/" ++ Prefix ++ "/" ++ serviceName ++ "/"

/-- Method `Next`. `Prefix` is the package variable of that name. -/
def watcher.Next (Prefix : String) (w : watcher) (st : StoreAnswers) : NextResult :=
  let key := watchKey Prefix w.re.serviceName
  let watchPart (w1 : watcher) : NextResult :=
    let r := nextRange (st.Watch key) 0
    { w := w1, updates := r.1, err := none, received := r.2 }
  if !w.isInitialized then
    let got := st.Get key
    let w1 := { w with isInitialized := true }
    if got.2 = none then
      let addrs := extractAddrs got.1
      if addrs.length ≠ 0 then
        { w := w1, updates := addrs.map (fun a => { Op := .Add, Addr := a }),
          err := none, received := 0 }
      else watchPart w1
    else watchPart w1
  else watchPart w

/-! ## register.go -/

/-- Verb `%d` of `fmt.Sprintf` on a Go `int`: the decimal digits, after a minus sign when the
number is negative. -/
def formatInt : Int → String
  | .ofNat n => String.mk (Nat.toDigits 10 n)
  | .negSucc n => "-" ++ String.mk (Nat.toDigits 10 (n + 1))

/-- The value of a registration: `fmt.Sprintf("%s:%d", host, port)`. -/
def serviceValueOf (host : String) (port : Int) : String :=
  host ++ ":" ++ formatInt port

/-- The key of a registration:
`fmt.Sprintf("/%s/%s/%s", Prefix, name, serviceValue)`. -/
def serviceKeyOf (Prefix : String) (name : String) (serviceValue : String) : String :=
  "/" ++ Prefix ++ "/" ++ name ++ "/" ++ serviceValue

/-- An etcd client handle, identified by the call that created it: `etcd3.New` with an
endpoint list, or `etcd3.NewFromURL`. -/
inductive Client where
  | New (Endpoints : List String)
  | NewFromURL (url : String)
deriving DecidableEq, Repr

/-- A lease identifier. -/
abbrev LeaseID := Int

/-- The etcd `LeaseGrantResponse`, restricted to `ID`. -/
structure LeaseGrantResponse where
  ID : LeaseID
deriving DecidableEq, Repr

/-- A request to the store. -/
inductive StoreOp where
  | Grant (ttl : Int)
  | Get (key : String)
  | Put (key : String) (val : String) (lease : LeaseID)
  | Delete (key : String)
deriving DecidableEq, Repr

/-- A request together with the client handle it was made on. -/
structure Call where
  client : Client
  op : StoreOp
deriving DecidableEq, Repr

/-- The lines written with `log.Printf`, one constructor per format string. -/
inductive LogLine where
  | setFailed (name : String) (err : Error)
  | connectFailed (name : String) (err : Error)
  | refreshFailed (name : String) (err : Error)
  | deregisterFailed (key : String) (err : Error)
  | deregisterOk (key : String)
deriving DecidableEq, Repr

/-- How a piece of Go code ends: it returns a value, it panics on a nil dereference, or it
blocks on a channel for ever. -/
inductive Outcome (α : Type) where
  | returned (a : α)
  | panicked
  | blocked
deriving DecidableEq, Repr

/-- The package variables of `register.go`. `client` is the variable of type `etcd3.Client`
(a struct value, not a pointer): `none` is its zero value, which is connected to nothing.
`stopSignal` is the buffer of the channel the variable holds now (capacity 1); `replaced`
lists the buffers of the channels the variable held before. -/
structure Globals where
  Prefix : String
  client : Option Client
  serviceKey : String
  stopSignal : List Bool
  replaced : List (List Bool)
deriving DecidableEq, Repr

/-- The package variables as the `var` block initialises them. -/
def Globals.init : Globals :=
  { Prefix := "etcd3_naming", client := none, serviceKey := "", stopSignal := [], replaced := [] }

/-- The local variables of one `Register` call that its closures capture. -/
structure Registration where
  client : Client
  serviceValue : String
  name : String
  ttl : Int
  interval : Int
deriving DecidableEq, Repr

/-- What the store answers during one run of `insertFunc`: the pair returned by `Grant`, and
the errors returned by `Get` and `Put`. -/
structure RenewalAnswers where
  grant : Option LeaseGrantResponse × Option Error
  get : Option Error
  put : Option Error
deriving DecidableEq, Repr

/-- The trace of a piece of code: the store calls it made, the lines it logged, how it ended. -/
structure Run where
  calls : List Call
  logs : List LogLine
  outcome : Outcome (Option Error)
deriving DecidableEq, Repr

/-- The closure `insertFunc` of `Register` (and, word for word, of `Registry`). It reads the
package variable `serviceKey` twice while it runs: `g` holds the package variables when the
run calls `Get`, `gPut` when it calls `Put` (the run is on its own goroutine, and a call of
`Register` or `Registry` may assign the variable in between; without such a call `gPut` is
`g`). The error of `Grant` is discarded and only its response `resp` is kept. The argument
`etcd3.WithLease(resp.ID)` of a `Put` is evaluated before the call: with a nil `resp` the run
panics there, and nothing is sent. -/
def insertFunc (g : Globals) (gPut : Globals) (r : Registration) (env : RenewalAnswers) :
    Run :=
  let resp := env.grant.1
  let calls : List Call := [⟨r.client, .Grant r.ttl⟩, ⟨r.client, .Get g.serviceKey⟩]
  match env.get with
  | some err =>
    if err = Error.ErrKeyNotFound then
      match resp with
      | none => { calls := calls, logs := [], outcome := .panicked }
      | some resp =>
        { calls := calls ++ [⟨r.client, .Put gPut.serviceKey r.serviceValue resp.ID⟩],
          logs := match env.put with
            | some err => [.setFailed r.name err]
            | none => [],
          outcome := .returned none }
    else
      { calls := calls, logs := [.connectFailed r.name err], outcome := .returned none }
  | none =>
    match resp with
    | none => { calls := calls, logs := [], outcome := .panicked }
    | some resp =>
      { calls := calls ++ [⟨r.client, .Put gPut.serviceKey r.serviceValue resp.ID⟩],
        logs := match env.put with
          | some err => [.refreshFailed r.name err]
          | none => [],
        outcome := .returned none }

/-- The result of `Register`: the package variables after the call, the returned error, and
the registration whose goroutine was started, if one was. -/
structure RegisterResult where
  g : Globals
  err : Option Error
  started : Option Registration
deriving DecidableEq, Repr

/-- Function `Register`, up to its `return`. `dial c` is the error of the client constructor
that creates `c`. The goroutine it starts is `goroutineStart` followed by `loopStep`. -/
def Register (g : Globals) (name : String) (host : String) (port : Int) (target : String)
    (interval : Int) (ttl : Int) (args : List Int) (dial : Client → Option Error) :
    RegisterResult :=
  let serviceValue := serviceValueOf host port
  let g1 := { g with serviceKey := serviceKeyOf g.Prefix name serviceValue }
  let client :=
    if args.length > 0 then Client.New (target.splitOn ",") else Client.NewFromURL target
  match dial client with
  | some err =>
    { g := g1, err := some (.other ("grpclb: create etcd3 client failed: " ++ err.text)),
      started := none }
  | none =>
    { g := g1, err := none,
      started := some { client := client, serviceValue := serviceValue, name := name,
                        ttl := ttl, interval := interval } }

/-- The record `Opt`. -/
structure Opt where
  Name : String
  Host : String
  Port : Int
  Target : String
  Interval : Int
  Ttl : Int
deriving DecidableEq, Repr

/-- Function `Registry`, up to its `return`. -/
def Registry (g : Globals) (opt : Opt) (args : List Int) (dial : Client → Option Error) :
    RegisterResult :=
  let serviceValue := serviceValueOf opt.Host opt.Port
  let g1 := { g with serviceKey := serviceKeyOf g.Prefix opt.Name serviceValue }
  let client :=
    if args.length > 0 then Client.New (opt.Target.splitOn ",")
    else Client.NewFromURL opt.Target
  match dial client with
  | some err =>
    { g := g1, err := some (.other ("grpclb: create etcd3 client failed: " ++ err.text)),
      started := none }
  | none =>
    { g := g1, err := none,
      started := some { client := client, serviceValue := serviceValue, name := opt.Name,
                        ttl := opt.Ttl, interval := opt.Interval } }

/-- The state of the goroutine started by `Register`: its registration, whether its context
is cancelled, whether it has returned. -/
structure Loop where
  reg : Registration
  ctxCancelled : Bool
  exited : Bool
deriving DecidableEq, Repr

/-- The case a `select` of the renewal loop takes. -/
inductive LoopEvent where
  | stop
  | tick
  | ctxDone
deriving DecidableEq, Repr

/-- The start of the goroutine: the first `insertFunc()`, and, when it returns nil (it never
returns another error), `time.NewTicker(interval)`, which panics when the interval is not
positive. The loop is entered when the result is `returned none`. -/
def goroutineStart (g : Globals) (gPut : Globals) (r : Registration) (env : RenewalAnswers) :
    Loop × Run :=
  let run := insertFunc g gPut r env
  match run.outcome with
  | .returned none =>
    if r.interval ≤ 0 then
      ({ reg := r, ctxCancelled := false, exited := true }, { run with outcome := .panicked })
    else
      ({ reg := r, ctxCancelled := false, exited := false }, run)
  | _ => ({ reg := r, ctxCancelled := false, exited := true }, run)

/-- One iteration of the `for` and `select` of the goroutine, for the case taken. In the case
of the ticker the result of `insertFunc()` is dropped. -/
def loopStep (g : Globals) (gPut : Globals) (l : Loop) (ev : LoopEvent)
    (env : RenewalAnswers) : Loop × Run :=
  match ev with
  | .stop =>
    ({ l with ctxCancelled := true, exited := true },
     { calls := [], logs := [], outcome := .returned none })
  | .tick =>
    let run := insertFunc g gPut l.reg env
    ({ l with exited := match run.outcome with
         | .returned _ => false
         | _ => true },
     run)
  | .ctxDone =>
    ({ l with exited := true },
     { calls := [⟨l.reg.client, .Delete g.serviceKey⟩], logs := [], outcome := .returned none })

/-- The result of `UnRegister`: the package variables after the call and its trace. -/
structure UnRegisterResult where
  g : Globals
  run : Run
deriving DecidableEq, Repr

/-- Function `UnRegister`. `del` is the error the store returns to `Delete`. The send blocks
when the buffer of the channel is full; the `Delete` is called on the package variable
`client`, and panics on its zero value; the returned `err` is the outer variable, which is
never assigned. -/
def UnRegister (g : Globals) (del : Option Error) : UnRegisterResult :=
  if g.stopSignal.length ≥ 1 then
    { g := g, run := { calls := [], logs := [], outcome := .blocked } }
  else
    let g1 := { g with stopSignal := [], replaced := (g.stopSignal ++ [true]) :: g.replaced }
    match g1.client with
    | none => { g := g1, run := { calls := [], logs := [], outcome := .panicked } }
    | some c =>
      { g := g1,
        run := { calls := [⟨c, .Delete g1.serviceKey⟩],
                 logs := match del with
                   | some err => [.deregisterFailed g1.serviceKey err]
                   | none => [.deregisterOk g1.serviceKey],
                 outcome := .returned none } }

/-! ## Definitions used to state the properties -/

/-- The events a channel delivers, in the order of delivery. -/
def delivered (rch : List WatchResponse) : List Event :=
  rch.flatMap (fun wresp => wresp.Events)

/-- An event of type Put or of type Delete. -/
def Event.isPutOrDelete (ev : Event) : Prop :=
  ev.EvType = EventTypePut ∨ ev.EvType = EventTypeDelete

/-- The member list that the first call of `Next` reads: the addresses extracted from the
answer to the range read, and nothing when the read fails. -/
def snapshot (Prefix : String) (w : watcher) (st : StoreAnswers) : List String :=
  let got := st.Get (watchKey Prefix w.re.serviceName)
  if got.2 = none then extractAddrs got.1 else []

/-- The range read of a fresh watcher gives it no address: the read fails, or no entry it
returns has a non-nil value. -/
def readGivesNoAddress (Prefix : String) (w : watcher) (st : StoreAnswers) : Prop :=
  (st.Get (watchKey Prefix w.re.serviceName)).2 ≠ none ∨
    ∀ kvs, (st.Get (watchKey Prefix w.re.serviceName)).1 = some { Kvs := some kvs } →
      ∀ kv ∈ kvs, kv.Value = none

/-- The range read of a fresh watcher succeeds and returns the entries `kvs`, of which at least
one has a non-nil value. -/
def readGivesAddress (Prefix : String) (w : watcher) (st : StoreAnswers) : Prop :=
  ∃ kvs, st.Get (watchKey Prefix w.re.serviceName) = (some { Kvs := some kvs }, none) ∧
    ∃ kv ∈ kvs, kv.Value ≠ none

/-- The translation of one event: a put event is an Add of its value, a delete event is a
Delete of its value, an event of another type is nothing. -/
def updateOf (ev : Event) : List Update :=
  if ev.EvType = EventTypePut then [{ Op := .Add, Addr := bytesToString ev.Kv.Value }]
  else if ev.EvType = EventTypeDelete then [{ Op := .Delete, Addr := bytesToString ev.Kv.Value }]
  else []

/-- The answers of a store whose watch channel yields `pending` and is then closed. -/
def watchOnly (pending : List WatchResponse) : StoreAnswers :=
  { Get := fun _ => (none, none), Watch := fun _ => pending }

/-- The results of `n` successive calls of `Next`, each on the watcher the call before left.
The channel a call opens yields the responses that no earlier call received: nothing is lost
between two subscriptions. -/
def nextCalls (Prefix : String) : Nat → watcher → List WatchResponse → List (List Update)
  | 0, _, _ => []
  | n + 1, w, pending =>
    let r := w.Next Prefix (watchOnly pending)
    r.updates :: nextCalls Prefix n r.w (pending.drop r.received)

/-- Two entries under the watched key, the second stored with an empty value. -/
def twoEntries : List KeyValue :=
  [{ Key := "/etcd3_naming/echo/10.0.0.1:9000", Value := some "10.0.0.1:9000" },
   { Key := "/etcd3_naming/echo/spare", Value := none }]

/-- A store whose range read returns `twoEntries` and whose watch channel is closed at once. -/
def twoEntriesStore : StoreAnswers :=
  { Get := fun _ => (some { Kvs := some twoEntries }, none), Watch := fun _ => [] }

/-- A put event of address `a`. -/
def putEvent (a : String) : Event :=
  { EvType := EventTypePut, Kv := { Key := "/etcd3_naming/echo/" ++ a, Value := some a } }

/-- A delete event of the key of address `a`; the record of a delete event has no value. -/
def deleteEvent (a : String) : Event :=
  { EvType := EventTypeDelete, Kv := { Key := "/etcd3_naming/echo/" ++ a, Value := none } }

/-- One watch response that carries two put events. -/
def twoPuts : List WatchResponse :=
  [{ Events := [putEvent "10.0.0.1:9000", putEvent "10.0.0.2:9000"] }]

/-- An initialized watcher of service `echo`. -/
def echoWatcher : watcher :=
  { re := { serviceName := "echo" }, isInitialized := true, cancelled := false }

/-- The number a list of decimal digits stands for. -/
def decodeDigits (l : List Char) : Nat :=
  l.foldl (fun a c => 10 * a + (c.toNat - 48)) 0

/-- The client handle that `Register` creates for `target`: `etcd3.New` on the endpoints
between the commas when `args` is not empty, `etcd3.NewFromURL` otherwise. -/
def clientOf (target : String) (args : List Int) : Client :=
  if args.length > 0 then Client.New (target.splitOn ",") else Client.NewFromURL target

/-- A call of `Register` followed by the start of the goroutine it launched, if it launched
one, with no other call in between: the result of `Register`, and the state and trace of the
goroutine after its start. -/
def registerAndStart (g : Globals) (name : String) (host : String) (port : Int)
    (target : String) (interval : Int) (ttl : Int) (args : List Int)
    (dial : Client → Option Error) (env : RenewalAnswers) :
    RegisterResult × Option (Loop × Run) :=
  let res := Register g name host port target interval ttl args dial
  (res, res.started.map (fun r => goroutineStart res.g res.g r env))

/-- No character of the string is a slash. -/
def noSlash (s : String) : Prop :=
  '/' ∉ s.data

/-- The registration of service `echo` at `10.0.0.1:9000` with a TTL of 5 seconds, made in a
fresh process on a store that accepts the connection. -/
def echoRegistered : RegisterResult :=
  Register Globals.init "echo" "10.0.0.1" 9000 "http://127.0.0.1:2379" 2000000000 5 []
    (fun _ => none)

/-- The captured variables of the registration `echoRegistered`. -/
def echoRegistration : Registration :=
  { client := Client.NewFromURL "http://127.0.0.1:2379", serviceValue := "10.0.0.1:9000",
    name := "echo", ttl := 5, interval := 2000000000 }

/-- A second registration, of service `other` at `10.0.0.2:9001`, made in the same process
after `echoRegistered`. -/
def otherRegistered : RegisterResult :=
  Register echoRegistered.g "other" "10.0.0.2" 9001 "http://127.0.0.1:2379" 2000000000 5 []
    (fun _ => none)

/-- Answers of a store that grants lease 7, reports the key present and accepts the write. -/
def grantedLease : RenewalAnswers :=
  { grant := (some { ID := 7 }, none), get := none, put := none }

/-- A store whose range read returns one entry, stored with an empty value, and whose watch
channel is closed at once. -/
def nilEntryStore : StoreAnswers :=
  { Get := fun _ => (some { Kvs := some [{ Key := "/etcd3_naming/echo/spare", Value := none }] },
                     none),
    Watch := fun _ => [] }

/-- Answers of a store that refuses the lease grant, so that `Grant` returns a nil response
and an error, and then answers the read. -/
def failedGrant : RenewalAnswers :=
  { grant := (none, some (Error.other "context deadline exceeded")), get := none, put := none }

/-! ## Lemmas on the watcher -/

theorem foldl_addrs (kvs : List KeyValue) (acc : List String) :
    kvs.foldl
        (fun addrs kv =>
          match kv.Value with
          | some v => addrs ++ [v]
          | none => addrs)
        acc
      = acc ++ kvs.filterMap (fun kv => kv.Value) := by
  induction kvs generalizing acc with
  | nil => simp
  | cons kv kvs ih =>
    rw [List.foldl_cons, ih]
    cases h : kv.Value <;> simp [List.filterMap_cons, h]

theorem extractAddrs_kvs (kvs : List KeyValue) :
    extractAddrs (some { Kvs := some kvs }) = kvs.filterMap (fun kv => kv.Value) := by
  simp [extractAddrs, foldl_addrs]

theorem Next_initialized (Prefix : String) (w : watcher) (st : StoreAnswers)
    (hw : w.isInitialized = true) :
    w.Next Prefix st =
      { w := w, updates := (nextRange (st.Watch (watchKey Prefix w.re.serviceName)) 0).1,
        err := none,
        received := (nextRange (st.Watch (watchKey Prefix w.re.serviceName)) 0).2 } := by
  simp [watcher.Next, hw]

theorem Next_fresh_empty (Prefix : String) (w : watcher) (st : StoreAnswers)
    (hw : w.isInitialized = false) (hs : snapshot Prefix w st = []) :
    w.Next Prefix st =
      { w := { w with isInitialized := true },
        updates := (nextRange (st.Watch (watchKey Prefix w.re.serviceName)) 0).1,
        err := none,
        received := (nextRange (st.Watch (watchKey Prefix w.re.serviceName)) 0).2 } := by
  unfold snapshot at hs
  simp only [watcher.Next, hw]
  by_cases hg : (st.Get (watchKey Prefix w.re.serviceName)).2 = none
  · simp only [hg, if_true] at hs
    simp [hg, hs]
  · simp [hg]

theorem Next_fresh_nonempty (Prefix : String) (w : watcher) (st : StoreAnswers)
    (hw : w.isInitialized = false) (hs : snapshot Prefix w st ≠ []) :
    w.Next Prefix st =
      { w := { w with isInitialized := true },
        updates := (snapshot Prefix w st).map (fun a => { Op := .Add, Addr := a }),
        err := none, received := 0 } := by
  unfold snapshot at hs ⊢
  simp only [watcher.Next, hw]
  by_cases hg : (st.Get (watchKey Prefix w.re.serviceName)).2 = none
  · simp only [hg, if_true] at hs ⊢
    simp [hs]
  · simp [hg] at hs

theorem delete_ne_put : EventTypeDelete ≠ EventTypePut := by decide

theorem nextEvents_none_iff (evs : List Event) :
    nextEvents evs = none ↔ ∀ ev ∈ evs, ¬ ev.isPutOrDelete := by
  induction evs with
  | nil => simp [nextEvents]
  | cons ev evs ih =>
    unfold nextEvents
    by_cases h1 : ev.EvType = EventTypePut
    · simp [h1, Event.isPutOrDelete]
    · by_cases h2 : ev.EvType = EventTypeDelete
      · simp [h2, delete_ne_put, Event.isPutOrDelete]
      · simp [h1, h2, ih, Event.isPutOrDelete]

theorem nextEvents_some_ne_nil (evs : List Event) (us : List Update)
    (h : nextEvents evs = some us) : us ≠ [] := by
  induction evs with
  | nil => simp [nextEvents] at h
  | cons ev evs ih =>
    unfold nextEvents at h
    split_ifs at h with h1 h2
    · cases h; simp
    · cases h; simp
    · exact ih h

theorem nextEvents_cons_updateOf (ev : Event) (evs : List Event) (h : ev.isPutOrDelete) :
    nextEvents (ev :: evs) = some (updateOf ev) := by
  unfold nextEvents updateOf
  rcases h with h | h
  · simp [h]
  · by_cases h1 : ev.EvType = EventTypePut
    · simp [h1]
    · simp [h, delete_ne_put]

theorem nextRange_nil_iff (rch : List WatchResponse) (n : Nat) :
    (nextRange rch n).1 = [] ↔ ∀ ev ∈ delivered rch, ¬ ev.isPutOrDelete := by
  induction rch generalizing n with
  | nil => simp [nextRange, delivered]
  | cons wresp rch ih =>
    unfold nextRange
    cases h : nextEvents wresp.Events with
    | none =>
      have h0 := (nextEvents_none_iff _).1 h
      simp only [ih]
      simp only [delivered, List.flatMap_cons, List.mem_append]
      constructor
      · intro hr ev hev
        rcases hev with hev | hev
        · exact h0 ev hev
        · exact hr ev hev
      · intro hr ev hev
        exact hr ev (Or.inr hev)
    | some us =>
      have hne := nextEvents_some_ne_nil _ _ h
      simp only [hne, false_iff]
      intro hall
      have : nextEvents wresp.Events = none :=
        (nextEvents_none_iff _).2 (fun ev hev => hall ev (by simp [delivered, hev]))
      rw [this] at h
      cases h

theorem nextRange_nil_received (rch : List WatchResponse) (n : Nat)
    (h : (nextRange rch n).1 = []) : (nextRange rch n).2 = n + rch.length := by
  induction rch generalizing n with
  | nil => simp [nextRange]
  | cons wresp rch ih =>
    unfold nextRange at h ⊢
    cases hev : nextEvents wresp.Events with
    | none =>
      simp only [hev] at h ⊢
      rw [ih (n + 1) h, List.length_cons]
      omega
    | some us =>
      simp only [hev] at h
      exact absurd h (nextEvents_some_ne_nil _ _ hev)

theorem nextRange_head (rch : List WatchResponse) (n : Nat) (ev : Event) (rest : List Event)
    (hd : delivered rch = ev :: rest) (hev : ev.isPutOrDelete) :
    (nextRange rch n).1 = updateOf ev := by
  induction rch generalizing n with
  | nil => simp [delivered] at hd
  | cons wresp rch ih =>
    unfold nextRange
    cases hE : wresp.Events with
    | nil =>
      have hd1 : delivered rch = ev :: rest := by
        simpa [delivered, hE] using hd
      simp only [nextEvents]
      exact ih (n + 1) hd1
    | cons e es =>
      have he : e = ev := by
        simp [delivered, hE] at hd
        exact hd.1
      subst he
      simp [nextEvents_cons_updateOf e es hev]

theorem nextCalls_closed (Prefix : String) (n : Nat) (w : watcher)
    (hw : w.isInitialized = true) :
    (nextCalls Prefix n w []).flatten = [] := by
  induction n with
  | zero => simp [nextCalls]
  | succ n ih =>
    have hN := Next_initialized Prefix w (watchOnly []) hw
    have hW : (watchOnly []).Watch (watchKey Prefix w.re.serviceName) = [] := rfl
    rw [hW] at hN
    simp only [nextCalls]
    rw [hN]
    simpa [nextRange] using ih

theorem nextRange_rest (rch : List WatchResponse) (n : Nat) :
    n ≤ (nextRange rch n).2 ∧ (rch ≠ [] → n < (nextRange rch n).2) ∧
      (nextRange rch n).1
          ++ (rch.drop ((nextRange rch n).2 - n)).flatMap
              (fun wresp => (nextEvents wresp.Events).getD [])
        = rch.flatMap (fun wresp => (nextEvents wresp.Events).getD []) := by
  induction rch generalizing n with
  | nil => simp [nextRange]
  | cons wresp rch ih =>
    unfold nextRange
    cases hev : nextEvents wresp.Events with
    | some us => simp [hev]
    | none =>
      obtain ⟨h1, _, h3⟩ := ih (n + 1)
      have hk : (nextRange rch (n + 1)).2 - n = ((nextRange rch (n + 1)).2 - (n + 1)) + 1 := by
        omega
      refine ⟨by simp only; omega, fun _ => by simp only; omega, ?_⟩
      simp only [hk, List.drop_succ_cons, List.flatMap_cons, hev, Option.getD_none,
        List.nil_append]
      exact h3

/-- Successive calls of `Next` on an initialized watcher, as many as there are responses,
return in all the first put or delete event of each response, and nothing else. -/
theorem nextCalls_flatten (Prefix : String) (n : Nat) : ∀ (w : watcher)
    (pending : List WatchResponse), w.isInitialized = true → pending.length ≤ n →
    (nextCalls Prefix n w pending).flatten
      = pending.flatMap (fun wresp => (nextEvents wresp.Events).getD []) := by
  induction n with
  | zero =>
    intro w pending _ hn
    have : pending = [] := List.length_eq_zero.1 (Nat.le_zero.1 hn)
    simp [nextCalls, this]
  | succ n ih =>
    intro w pending hw hn
    have hN := Next_initialized Prefix w (watchOnly pending) hw
    have hW : (watchOnly pending).Watch (watchKey Prefix w.re.serviceName) = pending := rfl
    rw [hW] at hN
    simp only [nextCalls]
    rw [hN]
    simp only [List.flatten_cons]
    obtain ⟨h1, h2, h3⟩ := nextRange_rest pending 0
    have hlen : (pending.drop (nextRange pending 0).2).length ≤ n := by
      rw [List.length_drop]
      by_cases hp : pending = []
      · simp [hp]
      · have := h2 hp
        omega
    rw [ih w _ hw hlen]
    simpa using h3

theorem snapshot_of_readGivesNoAddress (Prefix : String) (w : watcher) (st : StoreAnswers)
    (h : readGivesNoAddress Prefix w st) : snapshot Prefix w st = [] := by
  unfold snapshot
  by_cases hg : (st.Get (watchKey Prefix w.re.serviceName)).2 = none
  · simp only [hg, if_true]
    rcases h with h | h
    · exact absurd hg h
    · cases h1 : (st.Get (watchKey Prefix w.re.serviceName)).1 with
      | none => rfl
      | some r =>
        cases r with
        | mk Kvs =>
          cases Kvs with
          | none => rfl
          | some kvs =>
            rw [extractAddrs_kvs]
            have hall := h kvs h1
            apply List.filterMap_eq_nil_iff.2
            intro kv hkv
            exact hall kv hkv
  · simp [hg]

theorem snapshot_of_readGivesAddress (Prefix : String) (w : watcher) (st : StoreAnswers)
    (h : readGivesAddress Prefix w st) : snapshot Prefix w st ≠ [] := by
  obtain ⟨kvs, hget, kv, hkv, hv⟩ := h
  unfold snapshot
  simp only [hget, if_true]
  rw [extractAddrs_kvs]
  intro hnil
  exact hv (List.filterMap_eq_nil_iff.1 hnil kv hkv)

theorem readGivesNoAddress_of_snapshot (Prefix : String) (w : watcher) (st : StoreAnswers)
    (h : snapshot Prefix w st = []) : readGivesNoAddress Prefix w st := by
  unfold snapshot at h
  by_cases hg : (st.Get (watchKey Prefix w.re.serviceName)).2 = none
  · right
    intro kvs h1 kv hkv
    simp only [hg, if_true, h1, extractAddrs_kvs] at h
    exact List.filterMap_eq_nil_iff.1 h kv hkv
  · exact Or.inl hg

theorem Next_watch_part (Prefix : String) (w : watcher) (st : StoreAnswers)
    (hw : w.isInitialized = true ∨ readGivesNoAddress Prefix w st) :
    (w.Next Prefix st).updates
        = (nextRange (st.Watch (watchKey Prefix w.re.serviceName)) 0).1 ∧
      (w.Next Prefix st).received
        = (nextRange (st.Watch (watchKey Prefix w.re.serviceName)) 0).2 ∧
      (w.Next Prefix st).err = none := by
  cases hi : w.isInitialized with
  | true => rw [Next_initialized Prefix w st hi]; exact ⟨rfl, rfl, rfl⟩
  | false =>
    have hs : snapshot Prefix w st = [] := by
      rcases hw with hw | hw
      · rw [hi] at hw; cases hw
      · exact snapshot_of_readGivesNoAddress Prefix w st hw
    rw [Next_fresh_empty Prefix w st hi hs]; exact ⟨rfl, rfl, rfl⟩

theorem updateOf_put (ev : Event) (h : ev.EvType = EventTypePut) :
    updateOf ev = [{ Op := .Add, Addr := bytesToString ev.Kv.Value }] := by
  simp [updateOf, h]

theorem updateOf_delete (ev : Event) (h : ev.EvType = EventTypeDelete) :
    updateOf ev = [{ Op := .Delete, Addr := bytesToString ev.Kv.Value }] := by
  simp [updateOf, h, delete_ne_put]

/-! ## The watcher: properties -/

/-- C1 (counterexample). The range read succeeds and returns two entries, the second with a
nil value; the first call of `Next` on a fresh watcher returns one update, not two. -/
theorem next_first_call_skips_nil_value :
    twoEntriesStore.Get (watchKey "etcd3_naming" "echo")
        = (some { Kvs := some twoEntries }, none) ∧
      twoEntries.length = 2 ∧
      ((newWatcher { serviceName := "echo" }).Next "etcd3_naming" twoEntriesStore).err = none ∧
      ((newWatcher { serviceName := "echo" }).Next "etcd3_naming" twoEntriesStore).updates
        = [{ Op := .Add, Addr := "10.0.0.1:9000" }] ∧
      ((newWatcher { serviceName := "echo" }).Next "etcd3_naming" twoEntriesStore).updates.length
        ≠ twoEntries.length := by
  decide

/-- C1 (amended). When the range read over the watched key succeeds and at least one returned
entry has a non-nil value, the first call of `Next` on a fresh watcher returns, with no error,
one Add update per entry with a non-nil value, in the order the store returned them, each
carrying the value of its entry; when no entry has a nil value these are exactly the N
updates of the N entries. The call marks the watcher initialized. -/
theorem next_first_call_snapshot (Prefix : String) (w : watcher) (st : StoreAnswers)
    (kvs : List KeyValue) (hw : w.isInitialized = false)
    (hget : st.Get (watchKey Prefix w.re.serviceName) = (some { Kvs := some kvs }, none))
    (hne : kvs.filterMap (fun kv => kv.Value) ≠ []) :
    (w.Next Prefix st).err = none ∧
      (w.Next Prefix st).w.isInitialized = true ∧
      (w.Next Prefix st).updates
        = (kvs.filterMap (fun kv => kv.Value)).map (fun v => { Op := .Add, Addr := v }) ∧
      ((∀ kv ∈ kvs, kv.Value ≠ none) →
        (w.Next Prefix st).updates.length = kvs.length ∧
        (w.Next Prefix st).updates
          = kvs.map (fun kv => { Op := .Add, Addr := bytesToString kv.Value })) := by
  have hs : snapshot Prefix w st = kvs.filterMap (fun kv => kv.Value) := by
    simp [snapshot, hget, extractAddrs_kvs]
  have hN := Next_fresh_nonempty Prefix w st hw (by rw [hs]; exact hne)
  rw [hN, hs]
  refine ⟨rfl, rfl, rfl, ?_⟩
  intro hall
  have hfm : kvs.filterMap (fun kv => kv.Value) = kvs.map (fun kv => bytesToString kv.Value) := by
    clear hs hN hne hget
    induction kvs with
    | nil => rfl
    | cons kv kvs ih =>
      have hkv := hall kv (List.mem_cons_self _ _)
      have ih1 := ih (fun x hx => hall x (List.mem_cons_of_mem _ hx))
      cases hv : kv.Value with
      | none => exact absurd hv hkv
      | some v => simp [List.filterMap_cons, hv, ih1, bytesToString]
  simp only [hfm, List.map_map, List.length_map, true_and]
  rfl

/-- C1 (amended), at a store with two entries of which the first has a value. -/
theorem next_first_call_snapshot_witness :
    (newWatcher { serviceName := "echo" }).isInitialized = false ∧
      twoEntries.filterMap (fun kv => kv.Value) ≠ [] ∧
      ((newWatcher { serviceName := "echo" }).Next "etcd3_naming" twoEntriesStore).updates
        = (twoEntries.filterMap (fun kv => kv.Value)).map
            (fun v => { Op := .Add, Addr := v }) :=
  ⟨rfl, by decide,
   (next_first_call_snapshot "etcd3_naming" (newWatcher { serviceName := "echo" })
      twoEntriesStore twoEntries rfl rfl (by decide)).2.2.1⟩

/-- C2 (failing input). The store delivers two put events in one watch response. The first
call of `Next` returns the first as an Add update; every later call returns nothing, even
though no response is lost between two subscriptions: however many calls are made, their
results never add up to the translation of the two events. -/
theorem nextCalls_loses_second_event :
    (delivered twoPuts).flatMap updateOf
        = [{ Op := .Add, Addr := "10.0.0.1:9000" }, { Op := .Add, Addr := "10.0.0.2:9000" }] ∧
      nextCalls "etcd3_naming" 3 echoWatcher twoPuts
        = [[{ Op := .Add, Addr := "10.0.0.1:9000" }], [], []] ∧
      ∀ n, (nextCalls "etcd3_naming" n echoWatcher twoPuts).flatten
        ≠ (delivered twoPuts).flatMap updateOf := by
  refine ⟨by decide, by decide, ?_⟩
  intro n
  cases n with
  | zero => decide
  | succ n =>
    have h1 : (echoWatcher.Next "etcd3_naming" (watchOnly twoPuts))
        = { w := echoWatcher, updates := [{ Op := .Add, Addr := "10.0.0.1:9000" }],
            err := none, received := 1 } := by decide
    have h2 : List.drop 1 twoPuts = [] := by decide
    simp only [nextCalls, h1, h2, List.flatten_cons]
    rw [nextCalls_closed "etcd3_naming" n echoWatcher rfl]
    decide

/-- C3. On an initialized watcher, or a fresh one whose range read fails or returns no entry
with a non-nil value, when the first event the channel delivers is a put event, `Next`
returns with no error the single update Add that carries the value `v` of the event (the
empty string when the value is nil); when it is a delete event, `Next` returns with no error
a single update, of operation Delete, that carries the value of the event in the same way. -/
theorem next_translates_first_event (Prefix : String) (w : watcher) (st : StoreAnswers)
    (ev : Event) (rest : List Event)
    (hw : w.isInitialized = true ∨ readGivesNoAddress Prefix w st)
    (hd : delivered (st.Watch (watchKey Prefix w.re.serviceName)) = ev :: rest) :
    (ev.EvType = EventTypePut →
        (w.Next Prefix st).err = none ∧
        (∀ v, ev.Kv.Value = some v → (w.Next Prefix st).updates = [{ Op := .Add, Addr := v }]) ∧
        (ev.Kv.Value = none → (w.Next Prefix st).updates = [{ Op := .Add, Addr := "" }])) ∧
      (ev.EvType = EventTypeDelete →
        (w.Next Prefix st).err = none ∧
        (∀ v, ev.Kv.Value = some v →
          (w.Next Prefix st).updates = [{ Op := .Delete, Addr := v }]) ∧
        (ev.Kv.Value = none → (w.Next Prefix st).updates = [{ Op := .Delete, Addr := "" }])) := by
  obtain ⟨hU, _, hE⟩ := Next_watch_part Prefix w st hw
  constructor
  · intro hput
    have hup : (w.Next Prefix st).updates
        = [{ Op := .Add, Addr := bytesToString ev.Kv.Value }] := by
      rw [hU, nextRange_head _ 0 ev rest hd (Or.inl hput), updateOf_put ev hput]
    refine ⟨hE, ?_, ?_⟩
    · intro v hv
      rw [hup, hv]
      rfl
    · intro hv
      rw [hup, hv]
      rfl
  · intro hdel
    have hup : (w.Next Prefix st).updates
        = [{ Op := .Delete, Addr := bytesToString ev.Kv.Value }] := by
      rw [hU, nextRange_head _ 0 ev rest hd (Or.inr hdel), updateOf_delete ev hdel]
    refine ⟨hE, ?_, ?_⟩
    · intro v hv
      rw [hup, hv]
      rfl
    · intro hv
      rw [hup, hv]
      rfl

/-- C3, at an initialized watcher whose channel first delivers the put event of `a:1`, and at
one whose channel first delivers the delete event of `a:1`. -/
theorem next_translates_first_event_witness :
    (delivered ((watchOnly [{ Events := [] },
          { Events := [putEvent "a:1", deleteEvent "a:1"] }]).Watch
        (watchKey "etcd3_naming" echoWatcher.re.serviceName))
        = putEvent "a:1" :: [deleteEvent "a:1"] ∧
      (putEvent "a:1").EvType = EventTypePut ∧
      (putEvent "a:1").Kv.Value = some "a:1" ∧
      (echoWatcher.Next "etcd3_naming"
          (watchOnly [{ Events := [] },
            { Events := [putEvent "a:1", deleteEvent "a:1"] }])).updates
        = [{ Op := .Add, Addr := "a:1" }]) ∧
    (delivered ((watchOnly [{ Events := [deleteEvent "a:1", putEvent "a:1"] }]).Watch
        (watchKey "etcd3_naming" echoWatcher.re.serviceName))
        = deleteEvent "a:1" :: [putEvent "a:1"] ∧
      (deleteEvent "a:1").EvType = EventTypeDelete ∧
      (deleteEvent "a:1").Kv.Value = none ∧
      (echoWatcher.Next "etcd3_naming"
          (watchOnly [{ Events := [deleteEvent "a:1", putEvent "a:1"] }])).updates
        = [{ Op := .Delete, Addr := "" }]) :=
  ⟨⟨by decide, rfl, rfl,
    ((next_translates_first_event "etcd3_naming" echoWatcher
        (watchOnly [{ Events := [] }, { Events := [putEvent "a:1", deleteEvent "a:1"] }])
        (putEvent "a:1") [deleteEvent "a:1"] (Or.inl rfl) (by decide)).1 rfl).2.1 "a:1" rfl⟩,
   ⟨by decide, rfl, rfl,
    ((next_translates_first_event "etcd3_naming" echoWatcher
        (watchOnly [{ Events := [deleteEvent "a:1", putEvent "a:1"] }])
        (deleteEvent "a:1") [putEvent "a:1"] (Or.inl rfl) (by decide)).2 rfl).2.2 rfl⟩⟩

/-- C4 (counterexample). The range read of a fresh watcher succeeds and returns one entry,
whose value is nil; the watch channel is closed at once. The snapshot read from the store is
not empty, and `Next` returns an empty result with a nil error. -/
theorem next_nil_entry_empty_result :
    nilEntryStore.Get (watchKey "etcd3_naming" "echo")
        = (some { Kvs := some [{ Key := "/etcd3_naming/echo/spare", Value := none }] }, none) ∧
      (newWatcher { serviceName := "echo" }).isInitialized = false ∧
      ((newWatcher { serviceName := "echo" }).Next "etcd3_naming" nilEntryStore).updates = [] ∧
      ((newWatcher { serviceName := "echo" }).Next "etcd3_naming" nilEntryStore).err = none := by
  decide

/-- C4 (amended). `Next` never returns an error. When it returns an empty result, the channel
it opened delivered no put or delete event and was read up to its close, and the watcher was
initialized or its range read gave it no address. When the watcher is fresh and its range
read succeeds and returns at least one entry with a non-nil value, or when the channel
delivers a put or delete event, the result is not empty. -/
theorem next_empty_only_when_channel_ended (Prefix : String) (w : watcher)
    (st : StoreAnswers) :
    (w.Next Prefix st).err = none ∧
      ((w.Next Prefix st).updates = [] →
        (∀ ev ∈ delivered (st.Watch (watchKey Prefix w.re.serviceName)), ¬ ev.isPutOrDelete) ∧
        (w.Next Prefix st).received = (st.Watch (watchKey Prefix w.re.serviceName)).length ∧
        (w.isInitialized = true ∨ readGivesNoAddress Prefix w st)) ∧
      ((w.isInitialized = false ∧ readGivesAddress Prefix w st) ∨
          (∃ ev ∈ delivered (st.Watch (watchKey Prefix w.re.serviceName)), ev.isPutOrDelete) →
        (w.Next Prefix st).updates ≠ []) := by
  by_cases hi : w.isInitialized = true
  · rw [Next_initialized Prefix w st hi]
    refine ⟨rfl, ?_, ?_⟩
    · intro h
      refine ⟨(nextRange_nil_iff _ 0).1 h, ?_, Or.inl hi⟩
      simpa using nextRange_nil_received _ 0 h
    · rintro (⟨hf, _⟩ | ⟨ev, hev, hpd⟩) h
      · rw [hi] at hf; cases hf
      · exact (nextRange_nil_iff _ 0).1 h ev hev hpd
  · have hi : w.isInitialized = false := by simpa using hi
    by_cases hs : snapshot Prefix w st = []
    · rw [Next_fresh_empty Prefix w st hi hs]
      refine ⟨rfl, ?_, ?_⟩
      · intro h
        refine ⟨(nextRange_nil_iff _ 0).1 h, ?_,
          Or.inr (readGivesNoAddress_of_snapshot Prefix w st hs)⟩
        simpa using nextRange_nil_received _ 0 h
      · rintro (⟨_, hne⟩ | ⟨ev, hev, hpd⟩) h
        · exact snapshot_of_readGivesAddress Prefix w st hne hs
        · exact (nextRange_nil_iff _ 0).1 h ev hev hpd
    · rw [Next_fresh_nonempty Prefix w st hi hs]
      refine ⟨rfl, ?_, ?_⟩
      · intro h
        exact absurd (List.map_eq_nil_iff.1 h) hs
      · intro _ h
        exact absurd (List.map_eq_nil_iff.1 h) hs

/-- C4 (amended), at an initialized watcher whose channel is closed without an event, and at a
fresh watcher whose range read returns an entry with a value. -/
theorem next_empty_only_when_channel_ended_witness :
    ((echoWatcher.Next "etcd3_naming" (watchOnly [{ Events := [] }])).updates = [] ∧
      (echoWatcher.Next "etcd3_naming" (watchOnly [{ Events := [] }])).received
        = ((watchOnly [{ Events := [] }]).Watch
            (watchKey "etcd3_naming" echoWatcher.re.serviceName)).length) ∧
    ((newWatcher { serviceName := "echo" }).isInitialized = false ∧
      readGivesAddress "etcd3_naming" (newWatcher { serviceName := "echo" }) twoEntriesStore ∧
      ((newWatcher { serviceName := "echo" }).Next "etcd3_naming" twoEntriesStore).updates
        ≠ []) :=
  ⟨⟨by decide,
    ((next_empty_only_when_channel_ended "etcd3_naming" echoWatcher
        (watchOnly [{ Events := [] }])).2.1 (by decide)).2.1⟩,
   ⟨rfl,
    ⟨twoEntries, rfl, { Key := "/etcd3_naming/echo/10.0.0.1:9000", Value := some "10.0.0.1:9000" },
      by decide, by decide⟩,
    (next_empty_only_when_channel_ended "etcd3_naming" (newWatcher { serviceName := "echo" })
        twoEntriesStore).2.2
      (Or.inl ⟨rfl, twoEntries, rfl,
        { Key := "/etcd3_naming/echo/10.0.0.1:9000", Value := some "10.0.0.1:9000" },
        by decide, by decide⟩)⟩⟩

/-! ## Lemmas on keys -/

theorem digitChar_small (d : Nat) (h : d < 10) :
    (Nat.digitChar d).toNat - 48 = d ∧ (Nat.digitChar d).isDigit = true := by
  interval_cases d <;> decide

theorem toDigitsCore_spec (fuel : Nat) : ∀ (n : Nat) (ds : List Char), n < fuel →
    ∃ l, Nat.toDigitsCore 10 fuel n ds = l ++ ds ∧ (∀ c ∈ l, c.isDigit = true) ∧
      decodeDigits l = n := by
  induction fuel with
  | zero => intro n ds h; omega
  | succ fuel ih =>
    intro n ds h
    simp only [Nat.toDigitsCore]
    have hd := digitChar_small (n % 10) (Nat.mod_lt _ (by decide))
    by_cases h0 : n / 10 = 0
    · refine ⟨[Nat.digitChar (n % 10)], by simp [h0], by simpa using hd.2, ?_⟩
      have hn : n % 10 = n := by omega
      have h1 := hd.1
      simp only [decodeDigits, List.foldl_cons, List.foldl_nil, Nat.mul_zero, Nat.zero_add]
      rw [h1, hn]
    · have hlt : n / 10 < fuel := by omega
      obtain ⟨l, hl, hdig, hdec⟩ := ih (n / 10) (Nat.digitChar (n % 10) :: ds) hlt
      refine ⟨l ++ [Nat.digitChar (n % 10)], by simp [h0, hl], ?_, ?_⟩
      · intro c hc
        rcases List.mem_append.1 hc with hc | hc
        · exact hdig c hc
        · simp at hc; rw [hc]; exact hd.2
      · unfold decodeDigits at hdec ⊢
        rw [List.foldl_append, hdec]
        simp [hd.1]
        omega

theorem toDigits_spec (n : Nat) :
    (∀ c ∈ Nat.toDigits 10 n, c.isDigit = true) ∧ decodeDigits (Nat.toDigits 10 n) = n := by
  obtain ⟨l, hl, hdig, hdec⟩ := toDigitsCore_spec (n + 1) n [] (Nat.lt_succ_self n)
  simp only [List.append_nil] at hl
  unfold Nat.toDigits
  rw [hl]
  exact ⟨hdig, hdec⟩

theorem toDigits_inj (n m : Nat) (h : Nat.toDigits 10 n = Nat.toDigits 10 m) : n = m := by
  rw [← (toDigits_spec n).2, ← (toDigits_spec m).2, h]

theorem toDigits_ne_minus (n m : Nat) : Nat.toDigits 10 n ≠ '-' :: Nat.toDigits 10 m := by
  intro h
  have hmem : '-' ∈ Nat.toDigits 10 n := by rw [h]; exact List.mem_cons_self _ _
  have := (toDigits_spec n).1 _ hmem
  exact absurd this (by decide)

theorem formatInt_inj (i j : Int) (h : formatInt i = formatInt j) : i = j := by
  have hd := congrArg String.data h
  cases i with
  | ofNat n =>
    cases j with
    | ofNat m =>
      simp only [formatInt] at hd
      rw [toDigits_inj n m hd]
    | negSucc m =>
      simp only [formatInt, String.data_append] at hd
      exact absurd hd (toDigits_ne_minus n (m + 1))
  | negSucc n =>
    cases j with
    | ofNat m =>
      simp only [formatInt, String.data_append] at hd
      exact absurd hd.symm (toDigits_ne_minus m (n + 1))
    | negSucc m =>
      simp only [formatInt, String.data_append] at hd
      have h1 : Nat.toDigits 10 (n + 1) = Nat.toDigits 10 (m + 1) := by
        simpa using hd
      have := toDigits_inj _ _ h1
      have hnm : n = m := by omega
      rw [hnm]

theorem formatInt_chars (i : Int) (c : Char) (hc : c ∈ (formatInt i).data) :
    c.isDigit = true ∨ c = '-' := by
  cases i with
  | ofNat n =>
    simp only [formatInt] at hc
    exact Or.inl ((toDigits_spec n).1 c hc)
  | negSucc n =>
    simp only [formatInt, String.data_append] at hc
    rcases List.mem_append.1 hc with hc | hc
    · right
      simpa using hc
    · exact Or.inl ((toDigits_spec (n + 1)).1 c hc)

theorem formatInt_no_colon (i : Int) : ':' ∉ (formatInt i).data := by
  intro h
  rcases formatInt_chars i _ h with h | h
  · exact absurd h (by decide)
  · exact absurd h (by decide)

theorem formatInt_no_slash (i : Int) : '/' ∉ (formatInt i).data := by
  intro h
  rcases formatInt_chars i _ h with h | h
  · exact absurd h (by decide)
  · exact absurd h (by decide)

theorem split_first {α : Type} (sep : α) : ∀ (a a' b b' : List α),
    sep ∉ a → sep ∉ a' → a ++ sep :: b = a' ++ sep :: b' → a = a' ∧ b = b' := by
  intro a
  induction a with
  | nil =>
    intro a' b b' _ ha' h
    cases a' with
    | nil => simpa using h
    | cons x xs =>
      simp at h
      exact absurd (by simp [h.1]) ha'
  | cons x xs ih =>
    intro a' b b' ha ha' h
    cases a' with
    | nil =>
      simp at h
      exact absurd (by simp [h.1]) ha
    | cons y ys =>
      simp at h
      obtain ⟨hxy, hrest⟩ := h
      have := ih ys b b' (fun hm => ha (List.mem_cons_of_mem _ hm))
        (fun hm => ha' (List.mem_cons_of_mem _ hm)) hrest
      exact ⟨by rw [hxy, this.1], this.2⟩

theorem split_last {α : Type} (sep : α) (a a' b b' : List α)
    (hb : sep ∉ b) (hb' : sep ∉ b') (h : a ++ sep :: b = a' ++ sep :: b') :
    a = a' ∧ b = b' := by
  have hr := congrArg List.reverse h
  simp only [List.reverse_append, List.reverse_cons, List.append_assoc,
    List.singleton_append] at hr
  have := split_first sep b.reverse b'.reverse a.reverse a'.reverse (by simpa using hb)
    (by simpa using hb') hr
  exact ⟨List.reverse_injective this.2, List.reverse_injective this.1⟩

theorem serviceValueOf_data (host : String) (port : Int) :
    (serviceValueOf host port).data = host.data ++ ':' :: (formatInt port).data := by
  simp [serviceValueOf, String.data_append]

theorem serviceValueOf_inj (host host' : String) (port port' : Int)
    (h : serviceValueOf host port = serviceValueOf host' port') :
    host = host' ∧ port = port' := by
  have hd := congrArg String.data h
  rw [serviceValueOf_data, serviceValueOf_data] at hd
  have := split_last ':' _ _ _ _ (formatInt_no_colon port) (formatInt_no_colon port') hd
  exact ⟨String.ext this.1, formatInt_inj _ _ (String.ext this.2)⟩

theorem serviceKeyOf_data (Prefix name sv : String) :
    (serviceKeyOf Prefix name sv).data
      = ('/' :: Prefix.data ++ ['/']) ++ (name.data ++ '/' :: sv.data) := by
  simp [serviceKeyOf, String.data_append]

theorem serviceKeyOf_tail (Prefix name name' sv sv' : String)
    (h : serviceKeyOf Prefix name sv = serviceKeyOf Prefix name' sv') :
    name.data ++ '/' :: sv.data = name'.data ++ '/' :: sv'.data := by
  have hd := congrArg String.data h
  rw [serviceKeyOf_data, serviceKeyOf_data] at hd
  exact List.append_cancel_left hd

theorem serviceKeyOf_inj (Prefix name name' host host' : String) (port port' : Int)
    (hs : (noSlash name ∧ noSlash name') ∨ (noSlash host ∧ noSlash host'))
    (h : serviceKeyOf Prefix name (serviceValueOf host port)
        = serviceKeyOf Prefix name' (serviceValueOf host' port')) :
    name = name' ∧ host = host' ∧ port = port' := by
  have ht := serviceKeyOf_tail _ _ _ _ _ h
  have hsplit : name.data = name'.data ∧
      (serviceValueOf host port).data = (serviceValueOf host' port').data := by
    rcases hs with ⟨hn, hn'⟩ | ⟨hh, hh'⟩
    · exact split_first '/' _ _ _ _ hn hn' ht
    · have hv : ∀ (x : String) (p : Int), noSlash x → '/' ∉ (serviceValueOf x p).data := by
        intro x p hx hmem
        rw [serviceValueOf_data] at hmem
        rcases List.mem_append.1 hmem with hm | hm
        · exact hx hm
        · rcases List.mem_cons.1 hm with hm | hm
          · exact absurd hm (by decide)
          · exact formatInt_no_slash p hm
      exact split_last '/' _ _ _ _ (hv host port hh) (hv host' port' hh') ht
  have hv := serviceValueOf_inj host host' port port' (String.ext hsplit.2)
  exact ⟨String.ext hsplit.1, hv.1, hv.2⟩

theorem Register_serviceKey (g : Globals) (name : String) (host : String) (port : Int)
    (target : String) (interval : Int) (ttl : Int) (args : List Int)
    (dial : Client → Option Error) :
    (Register g name host port target interval ttl args dial).g.serviceKey
      = serviceKeyOf g.Prefix name (serviceValueOf host port) := by
  simp only [Register]
  split <;> rfl

theorem Register_client (g : Globals) (name : String) (host : String) (port : Int)
    (target : String) (interval : Int) (ttl : Int) (args : List Int)
    (dial : Client → Option Error) :
    (Register g name host port target interval ttl args dial).g.client = g.client := by
  simp only [Register]
  split <;> rfl

theorem insertFunc_panicked_iff (g gPut : Globals) (r : Registration)
    (env : RenewalAnswers) :
    (insertFunc g gPut r env).outcome = .panicked ↔
      env.grant.1 = none ∧ (env.get = none ∨ env.get = some Error.ErrKeyNotFound) := by
  unfold insertFunc
  cases hg : env.get with
  | none => cases hr : env.grant.1 <;> simp
  | some err =>
    by_cases he : err = Error.ErrKeyNotFound
    · cases hr : env.grant.1 <;> simp [he]
    · simp [he]

/-- While the package variable `client` has its zero value, `UnRegister` makes no call on a
store: it blocks on the send or panics at its `Delete`. -/
theorem UnRegister_zero_client (g : Globals) (del : Option Error) (hc : g.client = none) :
    (UnRegister g del).run.calls = [] ∧
      (UnRegister g del).run.outcome ≠ .returned none := by
  unfold UnRegister
  by_cases hb : g.stopSignal.length ≥ 1
  · simp [hb]
  · simp [hb, hc]

/-! ## The registrar: properties -/

/-- A run of `insertFunc` whose grant returns lease L and whose read reports the key present
or absent makes three calls on the client of its registration: Grant of its TTL, Get of the
key the package variable holds at the Get, Put of the key the package variable holds at the
Put with the value of the registration under lease L. -/
theorem insertFunc_granted (g gPut : Globals) (r : Registration) (L : LeaseID)
    (gerr : Option Error) (get : Option Error) (put : Option Error)
    (hget : get = none ∨ get = some Error.ErrKeyNotFound) :
    (insertFunc g gPut r { grant := (some { ID := L }, gerr), get := get, put := put }).calls
        = [⟨r.client, .Grant r.ttl⟩, ⟨r.client, .Get g.serviceKey⟩,
           ⟨r.client, .Put gPut.serviceKey r.serviceValue L⟩] ∧
      (insertFunc g gPut r { grant := (some { ID := L }, gerr), get := get, put := put }).outcome
        = .returned none := by
  rcases hget with hg | hg <;> simp [insertFunc, hg]

/-- C5 (failing input). In one process `echo` is registered at `10.0.0.1:9000` and then
`other` at `10.0.0.2:9001`; the second call assigns the package variable `serviceKey`. A run
of the renewal operation of `echo` right after its own `Register` puts the key of `echo`
with the value of `echo`. A run of the renewal operation of `echo` after the second
`Register`, with lease 7 granted, reads and puts the key of `other` with the value of
`echo`; when the second `Register` falls between its Get and its Put, it reads the key of
`echo` and puts the key of `other`. -/
theorem insertFunc_puts_other_key :
    echoRegistered.err = none ∧
      echoRegistered.started = some echoRegistration ∧
      otherRegistered.err = none ∧
      insertFunc echoRegistered.g echoRegistered.g echoRegistration grantedLease
        = { calls := [⟨Client.NewFromURL "http://127.0.0.1:2379", .Grant 5⟩,
                      ⟨Client.NewFromURL "http://127.0.0.1:2379",
                       .Get "/etcd3_naming/echo/10.0.0.1:9000"⟩,
                      ⟨Client.NewFromURL "http://127.0.0.1:2379",
                       .Put "/etcd3_naming/echo/10.0.0.1:9000" "10.0.0.1:9000" 7⟩],
            logs := [], outcome := .returned none } ∧
      insertFunc otherRegistered.g otherRegistered.g echoRegistration grantedLease
        = { calls := [⟨Client.NewFromURL "http://127.0.0.1:2379", .Grant 5⟩,
                      ⟨Client.NewFromURL "http://127.0.0.1:2379",
                       .Get "/etcd3_naming/other/10.0.0.2:9001"⟩,
                      ⟨Client.NewFromURL "http://127.0.0.1:2379",
                       .Put "/etcd3_naming/other/10.0.0.2:9001" "10.0.0.1:9000" 7⟩],
            logs := [], outcome := .returned none } ∧
      insertFunc echoRegistered.g otherRegistered.g echoRegistration grantedLease
        = { calls := [⟨Client.NewFromURL "http://127.0.0.1:2379", .Grant 5⟩,
                      ⟨Client.NewFromURL "http://127.0.0.1:2379",
                       .Get "/etcd3_naming/echo/10.0.0.1:9000"⟩,
                      ⟨Client.NewFromURL "http://127.0.0.1:2379",
                       .Put "/etcd3_naming/other/10.0.0.2:9001" "10.0.0.1:9000" 7⟩],
            logs := [], outcome := .returned none } := by
  decide

/-- C6 (failing input). In a fresh process, `Register` of `echo` at `10.0.0.1:9000` succeeds,
starts the goroutine on the client it connected, and leaves the package variable `client` at
its zero value. `UnRegister` then sends the stop signal and panics at its `Delete`, having
made no call on any store; the goroutine that takes the stop signal returns without a call. -/
theorem unRegister_after_register_panics :
    echoRegistered.err = none ∧
      echoRegistered.started = some echoRegistration ∧
      echoRegistered.g.serviceKey = "/etcd3_naming/echo/10.0.0.1:9000" ∧
      echoRegistered.g.client = none ∧
      (UnRegister echoRegistered.g none).run
        = { calls := [], logs := [], outcome := .panicked } ∧
      (UnRegister echoRegistered.g none).g.replaced = [[true]] ∧
      ∀ gPut env, (loopStep (UnRegister echoRegistered.g none).g gPut
          { reg := echoRegistration, ctxCancelled := false, exited := false } .stop env)
        = ({ reg := echoRegistration, ctxCancelled := true, exited := true },
           { calls := [], logs := [], outcome := .returned none }) := by
  refine ⟨by decide, by decide, by decide, by decide, by decide, by decide, ?_⟩
  intro gPut env
  rfl

/-- C7 (failing input). The lease grant fails, so that `Grant` returns a nil response, and the
read then succeeds: the run of the renewal operation panics when it evaluates `resp.ID`,
after its Grant and Get calls. -/
theorem insertFunc_failed_grant_panics :
    ∀ gPut, insertFunc echoRegistered.g gPut echoRegistration failedGrant
      = { calls := [⟨Client.NewFromURL "http://127.0.0.1:2379", .Grant 5⟩,
                    ⟨Client.NewFromURL "http://127.0.0.1:2379",
                     .Get "/etcd3_naming/echo/10.0.0.1:9000"⟩],
          logs := [], outcome := .panicked } := by
  intro gPut
  have hk : echoRegistered.g.serviceKey = "/etcd3_naming/echo/10.0.0.1:9000" := by decide
  simp only [insertFunc, failedGrant, echoRegistration, hk]

/-- C8. When creating the store client for the target fails with error `e`, `Register`
returns a non-nil error (the message of `e` after a fixed text), starts no goroutine, and no
store call is made. When creating the client succeeds, `Register` returns nil and starts the
goroutine of the registration, whatever the store answers to the Grant, Get and Put of the
first run of the renewal operation. -/
theorem register_fails_iff_dial_fails (g : Globals) (name : String) (host : String)
    (port : Int) (target : String) (interval : Int) (ttl : Int) (args : List Int)
    (dial : Client → Option Error) (env : RenewalAnswers) :
    (∀ e, dial (clientOf target args) = some e →
        (registerAndStart g name host port target interval ttl args dial env).1.err
          = some (Error.other ("grpclb: create etcd3 client failed: " ++ e.text)) ∧
        (registerAndStart g name host port target interval ttl args dial env).1.started
          = none ∧
        (registerAndStart g name host port target interval ttl args dial env).2 = none) ∧
      (dial (clientOf target args) = none →
        (registerAndStart g name host port target interval ttl args dial env).1.err = none ∧
        (registerAndStart g name host port target interval ttl args dial env).1.started
          = some { client := clientOf target args, serviceValue := serviceValueOf host port,
                   name := name, ttl := ttl, interval := interval }) := by
  unfold clientOf
  constructor
  · intro e he
    simp [registerAndStart, Register, he]
  · intro he
    simp [registerAndStart, Register, he]

/-- C8, at a store that refuses the connection. -/
theorem register_fails_iff_dial_fails_witness :
    (fun _ => some (Error.other "connection refused") : Client → Option Error)
        (clientOf "http://127.0.0.1:2379" []) = some (Error.other "connection refused") ∧
      (registerAndStart Globals.init "echo" "10.0.0.1" 9000 "http://127.0.0.1:2379"
          2000000000 5 [] (fun _ => some (Error.other "connection refused")) failedGrant).2
        = none :=
  ⟨rfl,
   ((register_fails_iff_dial_fails Globals.init "echo" "10.0.0.1" 9000
      "http://127.0.0.1:2379" 2000000000 5 [] (fun _ => some (Error.other "connection refused"))
      failedGrant).1 (Error.other "connection refused") rfl).2.2⟩

/-- C9. For a fixed prefix and service name, the key `Register` stores in `serviceKey` is
`/<Prefix>/<name>/<host>:<port>` whatever the other arguments are, and two calls whose
(host, port) pairs differ store different keys. -/
theorem register_key_distinct_addresses (g g' : Globals) (name : String)
    (host host' : String) (port port' : Int) (target target' : String)
    (interval interval' : Int) (ttl ttl' : Int) (args args' : List Int)
    (dial dial' : Client → Option Error)
    (hP : g.Prefix = g'.Prefix) (h : (host, port) ≠ (host', port')) :
    (Register g name host port target interval ttl args dial).g.serviceKey
        = serviceKeyOf g.Prefix name (serviceValueOf host port) ∧
      (Register g name host port target interval ttl args dial).g.serviceKey
        ≠ (Register g' name host' port' target' interval' ttl' args' dial').g.serviceKey := by
  refine ⟨Register_serviceKey _ _ _ _ _ _ _ _ _, ?_⟩
  rw [Register_serviceKey, Register_serviceKey, ← hP]
  intro heq
  have hv := serviceValueOf_inj host host' port port'
    (String.ext (List.append_cancel_left
      (show (name.data ++ ['/']) ++ (serviceValueOf host port).data
          = (name.data ++ ['/']) ++ (serviceValueOf host' port').data by
        simpa using serviceKeyOf_tail _ _ _ _ _ heq)))
  exact h (by rw [hv.1, hv.2])

/-- C9, at two hosts that contain colons. -/
theorem register_key_distinct_addresses_witness :
    (("::1", 80) : String × Int) ≠ ("::", 180) ∧
      (Register Globals.init "echo" "::1" 80 "t" 1 5 [] (fun _ => none)).g.serviceKey
        ≠ (Register Globals.init "echo" "::" 180 "u" 2 6 [1] (fun _ => none)).g.serviceKey :=
  ⟨by decide,
   (register_key_distinct_addresses Globals.init Globals.init "echo" "::1" "::" 80 180 "t" "u"
      1 2 5 6 [] [1] (fun _ => none) (fun _ => none) rfl (by decide)).2⟩

/-- C10 (counterexample). The registrations (`a`, `b/c`, 1) and (`a/b`, `c`, 1) differ and
`Register` builds the same key for both. -/
theorem register_key_collision :
    (("a", "b/c", 1) : String × String × Int) ≠ ("a/b", "c", 1) ∧
      (Register Globals.init "a" "b/c" 1 "t" 1 5 [] (fun _ => none)).g.serviceKey
        = "/etcd3_naming/a/b/c:1" ∧
      (Register Globals.init "a/b" "c" 1 "t" 1 5 [] (fun _ => none)).g.serviceKey
        = "/etcd3_naming/a/b/c:1" := by
  decide

/-- C10 (amended). For a fixed prefix, when neither service name contains a slash, or neither
host contains a slash, two calls of `Register` whose (name, host, port) triples differ store
different keys. -/
theorem register_key_distinct_triples (g g' : Globals) (name name' : String)
    (host host' : String) (port port' : Int) (target target' : String)
    (interval interval' : Int) (ttl ttl' : Int) (args args' : List Int)
    (dial dial' : Client → Option Error)
    (hP : g.Prefix = g'.Prefix)
    (hs : (noSlash name ∧ noSlash name') ∨ (noSlash host ∧ noSlash host'))
    (h : (name, host, port) ≠ (name', host', port')) :
    (Register g name host port target interval ttl args dial).g.serviceKey
      ≠ (Register g' name' host' port' target' interval' ttl' args' dial').g.serviceKey := by
  rw [Register_serviceKey, Register_serviceKey, ← hP]
  intro heq
  obtain ⟨h1, h2, h3⟩ := serviceKeyOf_inj _ _ _ _ _ _ _ hs heq
  exact h (by rw [h1, h2, h3])

/-- C10 (amended), at two service names without a slash and one host with slashes. -/
theorem register_key_distinct_triples_witness :
    ((noSlash "a" ∧ noSlash "ab") ∨ (noSlash "b/c" ∧ noSlash "b/c")) ∧
      (("a", "b/c", 1) : String × String × Int) ≠ ("ab", "b/c", 1) ∧
      (Register Globals.init "a" "b/c" 1 "t" 1 5 [] (fun _ => none)).g.serviceKey
        ≠ (Register Globals.init "ab" "b/c" 1 "t" 1 5 [] (fun _ => none)).g.serviceKey :=
  ⟨Or.inl ⟨by unfold noSlash; decide, by unfold noSlash; decide⟩, by decide,
   register_key_distinct_triples Globals.init Globals.init "a" "ab" "b/c" "b/c" 1 1 "t" "t"
     1 1 5 5 [] [] (fun _ => none) (fun _ => none) rfl
     (Or.inl ⟨by unfold noSlash; decide, by unfold noSlash; decide⟩) (by decide)⟩

end Grpclb
